import Mathlib

/-!
Verification of the course-catalog query service: the Express router that
serves an in-memory collection of course records through two read-only
operations, list-all and get-by-id.  The collection itself is loaded from a
static JSON document at startup and is modelled here as an abstract
`List Course` parameter, since the service logic is independent of its
contents.
-/

namespace CourseCatalog

/-- A course record: a numeric `id`, a `title`, and opaque pass-through
descriptive fields (modelled as an association list of strings), mirroring
the entries of the static dataset `data/courses.json`. -/
structure Course where
  id : Int
  title : String
  extra : List (String × String)
deriving DecidableEq, Repr

/-- The JSON body of a response produced by the courses router: a single
course object, an array of course objects, or an error object carrying one
message under the key `error`. -/
inductive Body where
  | course (c : Course)
  | courseList (cs : List Course)
  | errorObj (msg : String)
deriving DecidableEq, Repr

/-- An HTTP response of the router: a status code and a JSON body. -/
structure Response where
  status : Nat
  body : Body
deriving DecidableEq, Repr

/-! ### Model of JavaScript parseInt

The route handler parses the path parameter with `parseInt(req.params.id)`,
the ECMAScript built-in with the radix argument undefined: leading
whitespace is skipped, an optional sign is read, a leading `0x` or `0X`
switches to hexadecimal, and the longest prefix of valid digits is
converted; if that prefix is empty the result is NaN.  `none` models NaN
(float rounding of more than 2^53 digits of precision is not modelled; no
claim depends on it). -/

/-- Whitespace skipped by parseInt (space, tab, newline, carriage return,
vertical tab, form feed). -/
def jsWhitespace (c : Char) : Bool :=
  c = ' ' || c = '\t' || c = '\n' || c = '\r' || c = '\x0b' || c = '\x0c'

/-- Hexadecimal digit test used once a `0x` radix marker has been seen. -/
def isHexDigitJS (c : Char) : Bool :=
  c.isDigit || ('a' ≤ c && c ≤ 'f') || ('A' ≤ c && c ≤ 'F')

/-- Numeric value of one digit character (decimal or hexadecimal). -/
def digitVal (c : Char) : Nat :=
  if c.isDigit then c.toNat - '0'.toNat
  else if 'a' ≤ c && c ≤ 'f' then c.toNat - 'a'.toNat + 10
  else c.toNat - 'A'.toNat + 10

/-- Value of a digit string in the given radix, most significant first. -/
def digitsVal (radix : Nat) (l : List Char) : Nat :=
  l.foldl (fun acc c => acc * radix + digitVal c) 0

/-- Strip an optional leading sign, returning the sign and the rest. -/
def stripSign (l : List Char) : Int × List Char :=
  match l with
  | [] => (1, [])
  | c :: t => if c = '-' then (-1, t) else if c = '+' then (1, t) else (1, c :: t)

/-- Detect a leading `0x` or `0X` radix marker, returning the radix and the
rest. -/
def stripRadix (l : List Char) : Nat × List Char :=
  match l with
  | c₀ :: c₁ :: t =>
      if c₀ = '0' ∧ (c₁ = 'x' ∨ c₁ = 'X') then (16, t) else (10, c₀ :: c₁ :: t)
  | _ => (10, l)

/-- Model of ECMAScript `parseInt` on the character list of the input:
skip whitespace, read an optional sign, detect a radix marker, convert the
longest prefix of valid digits; an empty digit prefix yields NaN (`none`). -/
def parseIntList (l : List Char) : Option Int :=
  let l₀ := l.dropWhile jsWhitespace
  let sl := stripSign l₀
  let rl := stripRadix sl.2
  let digits := rl.2.takeWhile (fun c => if rl.1 = 16 then isHexDigitJS c else c.isDigit)
  if digits.isEmpty then none
  else some (sl.1 * (digitsVal rl.1 digits : Int))

/-- Model of ECMAScript `parseInt(s)` with the radix argument undefined, as
used on line 25 of the router.  `none` models NaN. -/
def parseIntJS (s : String) : Option Int :=
  parseIntList s.data

/-! ### The two route handlers -/

/-- JavaScript strict equality `c.id === parseInt(...)` between a course id
and a parse result: NaN (`none`) is equal to nothing. -/
def jsNumEq (n : Int) : Option Int → Bool
  | some m => n == m
  | none => false

/-- The handler of `GET /api/courses/:id` (router lines 24 to 31): a linear
scan `courses.find` comparing each record id to the parsed path parameter;
the first match is returned with status 200, otherwise status 404 with the
error object. -/
def getByID (courses : List Course) (idParam : String) : Response :=
  match courses.find? (fun c => jsNumEq c.id (parseIntJS idParam)) with
  | some c => ⟨200, Body.course c⟩
  | none => ⟨404, Body.errorObj "Course not found"⟩

/-- The numeric core of the same handler, after the path parameter has been
parsed to an id: `courses.find` comparing ids. -/
def getByIDNum (courses : List Course) (n : Int) : Response :=
  match courses.find? (fun c => c.id == n) with
  | some c => ⟨200, Body.course c⟩
  | none => ⟨404, Body.errorObj "Course not found"⟩

/-- The handler of `GET /api/courses` (router lines 20 to 22): the whole
collection, as loaded, with status 200. -/
def listCourses (courses : List Course) : Response :=
  ⟨200, Body.courseList courses⟩

/-! ### Server state and request handling

The router module holds one piece of state: the collection loaded once by
`require` at startup.  Handling a request reads that state and never writes
it; we model this with explicit state passing. -/

/-- The state of the running service: the collection loaded at startup. -/
structure ServerState where
  courses : List Course
deriving DecidableEq

/-- A request to one of the two routes. -/
inductive Request where
  | list
  | get (idParam : String)
deriving DecidableEq

/-- Handle one request: produce the next state and the response.  Neither
handler assigns to the collection, so the state component is returned
unchanged, exactly as in the source. -/
def handle (st : ServerState) (r : Request) : ServerState × Response :=
  match r with
  | Request.list => (st, listCourses st.courses)
  | Request.get s => (st, getByID st.courses s)

/-- Run a sequence of requests, threading the state. -/
def runRequests (st : ServerState) (rs : List Request) : ServerState :=
  rs.foldl (fun s r => (handle s r).1) st

/-! ### Helper lemmas -/

/-- Handling a request never changes the server state, because neither
handler assigns to the loaded collection. -/
theorem handle_fst (st : ServerState) (r : Request) : (handle st r).1 = st := by
  cases r <;> rfl

/-- The id handler depends on the path parameter only through the parse. -/
theorem getByID_congr_parse (courses : List Course) (s₁ s₂ : String)
    (h : parseIntJS s₁ = parseIntJS s₂) : getByID courses s₁ = getByID courses s₂ := by
  simp only [getByID, h]

/-- When the path parameter parses to `n`, the id handler reduces to the
numeric lookup at `n`. -/
theorem getByID_parse_some (courses : List Course) (s : String) (n : Int)
    (h : parseIntJS s = some n) : getByID courses s = getByIDNum courses n := by
  simp only [getByID, getByIDNum, h, jsNumEq]

/-- A NaN parse result matches no record, so the scan fails and the handler
returns the 404 error object. -/
theorem getByID_parse_nan (courses : List Course) (s : String)
    (h : parseIntJS s = none) :
    getByID courses s = ⟨404, Body.errorObj "Course not found"⟩ := by
  have hf : courses.find? (fun c => jsNumEq c.id (parseIntJS s)) = none :=
    List.find?_eq_none.mpr (fun x _ => by simp [h, jsNumEq])
  simp only [getByID, hf]

/-- When no record carries the requested id, the numeric lookup returns the
404 error object. -/
theorem getByIDNum_absent (courses : List Course) (n : Int)
    (habs : ∀ c ∈ courses, c.id ≠ n) :
    getByIDNum courses n = ⟨404, Body.errorObj "Course not found"⟩ := by
  have hf : courses.find? (fun c => c.id == n) = none :=
    List.find?_eq_none.mpr (fun x hx => by simp [habs x hx])
  simp only [getByIDNum, hf]

/-- A linear scan for id `n` over a list that splits into a clean part, the
record `c` with id `n`, and a remainder, returns `c`: the first match in
definition order. -/
theorem find?_id_first (l₁ l₂ : List Course) (c : Course) (n : Int)
    (hid : c.id = n) (hfirst : ∀ x ∈ l₁, x.id ≠ n) :
    (l₁ ++ c :: l₂).find? (fun x => x.id == n) = some c := by
  induction l₁ with
  | nil => simp [List.find?_cons_of_pos, hid]
  | cons a t ih =>
      have ha : (a.id == n) = false := by
        simpa using hfirst a (List.mem_cons_self a t)
      rw [List.cons_append, List.find?_cons, ha]
      exact ih fun x hx => hfirst x (List.mem_cons_of_mem a hx)

/-- A decimal digit character is not whitespace, not a sign, and not one of
the radix marker letters. -/
theorem isDigit_facts (c : Char) (h : c.isDigit = true) :
    jsWhitespace c = false ∧ c ≠ '-' ∧ c ≠ '+' ∧ c ≠ 'x' ∧ c ≠ 'X' := by
  have hd : '0' ≤ c ∧ c ≤ '9' := by simpa [Char.isDigit] using h
  have h1 : c ≠ ' ' := fun e => absurd (e ▸ hd.1) (by decide)
  have h2 : c ≠ '\t' := fun e => absurd (e ▸ hd.1) (by decide)
  have h3 : c ≠ '\n' := fun e => absurd (e ▸ hd.1) (by decide)
  have h4 : c ≠ '\r' := fun e => absurd (e ▸ hd.1) (by decide)
  have h5 : c ≠ '\x0b' := fun e => absurd (e ▸ hd.1) (by decide)
  have h6 : c ≠ '\x0c' := fun e => absurd (e ▸ hd.1) (by decide)
  refine ⟨by simp [jsWhitespace, h1, h2, h3, h4, h5, h6], ?_, ?_, ?_, ?_⟩
  · exact fun e => absurd (e ▸ hd.1) (by decide)
  · exact fun e => absurd (e ▸ hd.1) (by decide)
  · exact fun e => absurd (e ▸ hd.2) (by decide)
  · exact fun e => absurd (e ▸ hd.2) (by decide)

/-- takeWhile cuts exactly at the boundary between a block on which the
predicate holds and a remainder on which it fails. -/
theorem takeWhile_block (p : Char → Bool) (ds rest : List Char)
    (hds : ∀ c ∈ ds, p c = true) (hrest : ∀ c ∈ rest, p c = false) :
    (ds ++ rest).takeWhile p = ds := by
  induction ds with
  | nil =>
      cases rest with
      | nil => rfl
      | cons r t => simp [List.takeWhile_cons, hrest r (List.mem_cons_self r t)]
  | cons d t ih =>
      simp [List.takeWhile_cons, hds d (List.mem_cons_self d t),
        ih fun c hc => hds c (List.mem_cons_of_mem d hc)]

/-- Parsing a nonempty block of decimal digits with trailing non-digit
characters: unless the first two characters are the radix marker 0x or 0X,
the trailing characters are discarded and the value is that of the digit
block alone, exactly as for the digit block by itself. -/
theorem parseIntList_digits (ds rest : List Char)
    (hne : ds ≠ [])
    (hds : ∀ c ∈ ds, c.isDigit = true)
    (hrest : ∀ c ∈ rest, c.isDigit = false)
    (hx : (ds ++ rest).take 2 ≠ ['0', 'x'] ∧ (ds ++ rest).take 2 ≠ ['0', 'X']) :
    parseIntList (ds ++ rest) = some ((digitsVal 10 ds : Nat) : Int) ∧
    parseIntList ds = some ((digitsVal 10 ds : Nat) : Int) := by
  obtain ⟨d, t, rfl⟩ : ∃ d t, ds = d :: t := by
    cases ds with
    | nil => exact absurd rfl hne
    | cons d t => exact ⟨d, t, rfl⟩
  have fd := isDigit_facts d (hds d (List.mem_cons_self d t))
  have main : ∀ l : List Char, l.dropWhile jsWhitespace = l →
      stripSign l = (1, l) → stripRadix l = (10, l) →
      l.takeWhile (fun c => c.isDigit) = d :: t →
      parseIntList l = some ((digitsVal 10 (d :: t) : Nat) : Int) := by
    intro l e1 e2 e3 e4
    simp [parseIntList, e1, e2, e3, e4]
  have hC2 : stripRadix (d :: t) = (10, d :: t) := by
    cases t with
    | nil => rfl
    | cons d₂ t2 =>
        have fd₂ := isDigit_facts d₂ (hds d₂ (by simp))
        simp [stripRadix, fd₂.2.2.2.1, fd₂.2.2.2.2]
  have hC1 : stripRadix ((d :: t) ++ rest) = (10, (d :: t) ++ rest) := by
    cases t with
    | cons d₂ t2 =>
        have fd₂ := isDigit_facts d₂ (hds d₂ (by simp))
        simp [stripRadix, fd₂.2.2.2.1, fd₂.2.2.2.2]
    | nil =>
        cases rest with
        | nil => rfl
        | cons r rt =>
            have hcond : ¬ (d = '0' ∧ (r = 'x' ∨ r = 'X')) := by
              rintro ⟨rfl, rfl | rfl⟩
              · exact hx.1 rfl
              · exact hx.2 rfl
            simp [stripRadix, hcond]
  have hDrop : ∀ X : List Char, (d :: X).dropWhile jsWhitespace = d :: X :=
    fun X => by simp [List.dropWhile_cons, fd.1]
  have hSign : ∀ X : List Char, stripSign (d :: X) = (1, d :: X) :=
    fun X => by simp [stripSign, fd.2.1, fd.2.2.1]
  have hTake1 : ((d :: t) ++ rest).takeWhile (fun c => c.isDigit) = d :: t :=
    takeWhile_block _ (d :: t) rest hds hrest
  have hTake2 : (d :: t).takeWhile (fun c => c.isDigit) = d :: t := by
    have := takeWhile_block (fun c => c.isDigit) (d :: t) [] hds (by simp)
    simpa using this
  constructor
  · exact main ((d :: t) ++ rest) (hDrop (t ++ rest)) (hSign (t ++ rest)) hC1 hTake1
  · exact main (d :: t) (hDrop t) (hSign t) hC2 hTake2

/-! ### The claims -/

/-- C1: for every record stored in the loaded collection (with the unique-id
invariant of the dataset), the id handler applied to any path parameter that
parses to that record's id returns exactly that record with status 200. -/
theorem getByID_stored_record (courses : List Course) (c : Course) (s : String)
    (hmem : c ∈ courses)
    (huniq : courses.Pairwise fun a b => a.id ≠ b.id)
    (hs : parseIntJS s = some c.id) :
    getByID courses s = ⟨200, Body.course c⟩ := by
  obtain ⟨l₁, l₂, rfl⟩ := List.append_of_mem hmem
  have hfirst : ∀ x ∈ l₁, x.id ≠ c.id := by
    intro x hx
    exact (List.pairwise_append.mp huniq).2.2 x hx c (List.mem_cons_self c l₂)
  rw [getByID_parse_some _ _ _ hs, getByIDNum, find?_id_first l₁ l₂ c c.id rfl hfirst]

/-- C1 witness: on the two-course fixture dataset, requesting id 2 returns
the second record. -/
theorem getByID_stored_record_witness :
    getByID [⟨1, "Intro to Cloud", []⟩, ⟨2, "Terraform Basics", []⟩] "2" =
      ⟨200, Body.course ⟨2, "Terraform Basics", []⟩⟩ :=
  getByID_stored_record _ ⟨2, "Terraform Basics", []⟩ _
    (by decide) (by decide) (by decide)

/-- C2: for every id value carried by no record of the collection, the id
handler returns the 404 error object, hence no record. -/
theorem getByID_absent_id (courses : List Course) (s : String) (n : Int)
    (hs : parseIntJS s = some n) (habs : ∀ c ∈ courses, c.id ≠ n) :
    getByID courses s = ⟨404, Body.errorObj "Course not found"⟩ := by
  rw [getByID_parse_some _ _ _ hs]
  exact getByIDNum_absent courses n habs

/-- C2 witness: id 99 is absent from the fixture dataset and yields 404. -/
theorem getByID_absent_id_witness :
    getByID [⟨1, "Intro to Cloud", []⟩, ⟨2, "Terraform Basics", []⟩] "99" =
      ⟨404, Body.errorObj "Course not found"⟩ :=
  getByID_absent_id _ "99" 99 (by decide) (by decide)

/-- C3: every malformed (non-numeric) path parameter parses to NaN, which
matches no record id, so the id handler returns the 404 error object; the
handler is a total function, so no crash is possible. -/
theorem getByID_malformed_not_found (courses : List Course) (s : String)
    (hs : parseIntJS s = none) :
    getByID courses s = ⟨404, Body.errorObj "Course not found"⟩ ∧
    ∀ c ∈ courses, jsNumEq c.id (parseIntJS s) = false := by
  refine ⟨getByID_parse_nan courses s hs, fun c _ => ?_⟩
  rw [hs]
  rfl

/-- C3 witness: the malformed input string abc yields 404 on a nonempty
collection. -/
theorem getByID_malformed_not_found_witness :
    getByID [⟨1, "Intro to Cloud", []⟩] "abc" =
      ⟨404, Body.errorObj "Course not found"⟩ ∧
    ∀ c ∈ [(⟨1, "Intro to Cloud", []⟩ : Course)],
      jsNumEq c.id (parseIntJS "abc") = false :=
  getByID_malformed_not_found _ "abc" (by decide)

/-- C4: the list handler returns the loaded collection itself: every record
exactly once, the count equal to the dataset size, and the order equal to
dataset-definition order. -/
theorem listCourses_complete (courses : List Course) :
    ∃ l, listCourses courses = ⟨200, Body.courseList l⟩ ∧ l = courses ∧
      l.length = courses.length ∧ ∀ c : Course, l.count c = courses.count c :=
  ⟨courses, rfl, rfl, rfl, fun _ => rfl⟩

/-- C5: both handlers are deterministic and idempotent: a call leaves the
state unchanged, an immediate repeat of the same request yields the same
response, and no interleaved call to either handler changes the response of
a later request. -/
theorem handlers_idempotent (st : ServerState) (r : Request) :
    (handle st r).1 = st ∧
    (handle (handle st r).1 r).2 = (handle st r).2 ∧
    ∀ q : Request, (handle (handle st q).1 r).2 = (handle st r).2 := by
  refine ⟨handle_fst st r, ?_, fun q => ?_⟩
  · rw [handle_fst]
  · rw [handle_fst]

/-- C6: a malformed path parameter and a well-formed one whose id is absent
produce the identical output, the 404 error object, with no distinction
between the two cases. -/
theorem getByID_malformed_eq_absent (courses : List Course) (s₁ s₂ : String)
    (n : Int) (h₁ : parseIntJS s₁ = none) (h₂ : parseIntJS s₂ = some n)
    (habs : ∀ c ∈ courses, c.id ≠ n) :
    getByID courses s₁ = getByID courses s₂ ∧
    getByID courses s₁ = ⟨404, Body.errorObj "Course not found"⟩ := by
  have e₁ := getByID_parse_nan courses s₁ h₁
  have e₂ : getByID courses s₂ = ⟨404, Body.errorObj "Course not found"⟩ := by
    rw [getByID_parse_some _ _ _ h₂]
    exact getByIDNum_absent courses n habs
  exact ⟨e₁.trans e₂.symm, e₁⟩

/-- C6 witness: the malformed input abc and the absent id 99 give the same
404 output on the fixture dataset. -/
theorem getByID_malformed_eq_absent_witness :
    getByID [⟨1, "Intro to Cloud", []⟩] "abc" =
      getByID [⟨1, "Intro to Cloud", []⟩] "99" ∧
    getByID [⟨1, "Intro to Cloud", []⟩] "abc" =
      ⟨404, Body.errorObj "Course not found"⟩ :=
  getByID_malformed_eq_absent _ "abc" "99" 99 (by decide) (by decide) (by decide)

/-- C7: the list handler always succeeds: for every server state it returns
status 200 with the JSON array of the loaded courses, has no failure branch,
and leaves the state untouched. -/
theorem list_always_succeeds (st : ServerState) :
    handle st Request.list = (st, ⟨200, Body.courseList st.courses⟩) := rfl

/-- C8: the collection loaded at startup is never mutated: after any
sequence of requests to either handler, the server state, and in particular
its course collection, equals the state as loaded. -/
theorem collection_never_mutated (st : ServerState) (rs : List Request) :
    runRequests st rs = st ∧ (runRequests st rs).courses = st.courses := by
  have h : runRequests st rs = st := by
    induction rs with
    | nil => rfl
    | cons r t ih =>
        have step : runRequests st (r :: t) = runRequests (handle st r).1 t := rfl
        rw [step, handle_fst]
        exact ih
  exact ⟨h, by rw [h]⟩

/-- C9 counterexample to the unrestricted claim: the input 0xab begins with
the decimal digit 0 followed by the non-numeric characters x, a, b, yet the
lenient parse reads it as hexadecimal 171, so on a collection holding a
record with id 171 the handler returns that record instead of behaving as
if called with the numeric prefix 0, which yields 404. -/
theorem getByID_digit_trailing_cex :
    (∀ c ∈ ['0'], c.isDigit = true) ∧
    (∀ c ∈ ([] ++ "xab".data), c.isDigit = false) ∧
    String.mk (['0'] ++ "xab".data) = "0xab" ∧
    getByID [⟨171, "Hex Course", []⟩] "0xab" =
      ⟨200, Body.course ⟨171, "Hex Course", []⟩⟩ ∧
    getByID [⟨171, "Hex Course", []⟩] "0" =
      ⟨404, Body.errorObj "Course not found"⟩ := by
  decide

/-- C9 (amended): for every input that begins with a nonempty block of
decimal digits followed by trailing non-numeric characters, and that does
not begin with the hexadecimal radix marker 0x or 0X, the id handler
behaves exactly as if called with the numeric digit prefix, whose value the
lenient parse returns. -/
theorem getByID_digit_trailing (courses : List Course) (ds rest : List Char)
    (hne : ds ≠ [])
    (hds : ∀ c ∈ ds, c.isDigit = true)
    (hrest : ∀ c ∈ rest, c.isDigit = false)
    (hx : (ds ++ rest).take 2 ≠ ['0', 'x'] ∧ (ds ++ rest).take 2 ≠ ['0', 'X']) :
    getByID courses ⟨ds ++ rest⟩ = getByID courses ⟨ds⟩ ∧
    parseIntJS ⟨ds ++ rest⟩ = some ((digitsVal 10 ds : Nat) : Int) := by
  have h := parseIntList_digits ds rest hne hds hrest hx
  exact ⟨getByID_congr_parse courses _ _ (h.1.trans h.2.symm), h.1⟩

/-- C9 witness: the input 2abc is looked up as id 2 and returns the same
response as the input 2. -/
theorem getByID_digit_trailing_witness :
    getByID [⟨2, "Terraform Basics", []⟩] ⟨"2".data ++ "abc".data⟩ =
      getByID [⟨2, "Terraform Basics", []⟩] ⟨"2".data⟩ ∧
    parseIntJS ⟨"2".data ++ "abc".data⟩ =
      some ((digitsVal 10 "2".data : Nat) : Int) :=
  getByID_digit_trailing _ "2".data "abc".data
    (by decide) (by decide) (by decide) (by decide)

/-- C10: when the unique-id precondition is violated and several records
share an id, the id handler returns the first record with that id in
dataset-definition order, the linear scan stopping at the first match. -/
theorem getByID_duplicate_first (courses l₁ l₂ : List Course) (c : Course)
    (n : Int) (s : String)
    (hsplit : courses = l₁ ++ c :: l₂) (hid : c.id = n)
    (hfirst : ∀ x ∈ l₁, x.id ≠ n) (hs : parseIntJS s = some n) :
    getByID courses s = ⟨200, Body.course c⟩ := by
  subst hsplit
  rw [getByID_parse_some _ _ _ hs, getByIDNum, find?_id_first l₁ l₂ c n hid hfirst]

/-- C10 witness: with two records of id 1, requesting id 1 returns the one
defined first. -/
theorem getByID_duplicate_first_witness :
    getByID [⟨1, "First", []⟩, ⟨1, "Second", []⟩] "1" =
      ⟨200, Body.course ⟨1, "First", []⟩⟩ :=
  getByID_duplicate_first _ [] [⟨1, "Second", []⟩] ⟨1, "First", []⟩ 1 "1"
    rfl rfl (by simp) (by decide)

end CourseCatalog
